import Mathlib

/-!
Verification of the NutriGen Streamlit app (`app.py`): a shallow embedding
of its model/tokenizer loading pipeline, checkpoint resolution, ingredient
parsing, text post-processing, UI trigger handling, and (spec-modelled)
autoregressive generation loop, together with theorems checking the
natural-language specification against that embedding.

Modelling conventions:
* Python dictionaries are association lists with unique keys; iteration
  order is list order (Python dicts preserve insertion order).
* Python heterogeneous values (checkpoint fields) are the inductive `PyVal`;
  tensors are opaque and carried as identifiers; Python floats appear only
  as literals that are passed through unchanged, so they are carried as
  rationals.
* Python exceptions are modelled with `Except String`; the `try/except`
  of `load_model_and_tokenizer` is the final `match` collapsing any error
  to the all-`none` triple.  Calls into libraries outside the repository
  (torch, pickle, the model class) are oracles supplied by a `LoadEnv`.
* Python strings are their character sequences (`String.data`); the
  string primitives used by the source (`startswith`, slicing `[7:]`,
  `split(',')`, `strip()`, `capitalize()`) are given explicit ASCII
  character-level definitions `pyStartswith`, `pyDrop`, `pySplitComma`,
  `pyStrip`, `pyCapitalize`.
-/

namespace NutriGen

/-- A Python value as it occurs in a checkpoint mapping: an integer, a
float (carried as a rational, see module conventions), an opaque tensor
identified by a number, or a nested dict (association list in insertion
order). -/
inductive PyVal where
  | nat : Nat → PyVal
  | rat : Rat → PyVal
  | tensor : Nat → PyVal
  | dict : List (String × PyVal) → PyVal
deriving Repr

/-- A Python dict of `PyVal`s: association list in insertion order. -/
abbrev PyDict := List (String × PyVal)

/-- `d.get(k)` without default: first binding of `k`.  (Dicts have unique
keys, so "first" is "the" binding.) -/
def dget : PyDict → String → Option PyVal
  | [], _ => none
  | (k, v) :: rest, key => if k = key then some v else dget rest key

/-- `d[k] = v` on a Python dict: overwrite in place if the key exists,
else append at the end (insertion order). -/
def dictSet : PyDict → String → PyVal → PyDict
  | [], k, v => [(k, v)]
  | (k', v') :: rest, k, v =>
    if k' = k then (k', v) :: rest else (k', v') :: dictSet rest k v

/-- Build a dict from a list of pairs in order, as a Python dict
comprehension does: later duplicates overwrite earlier bindings. -/
def dictOfPairs (ps : List (String × PyVal)) : PyDict :=
  ps.foldl (fun d p => dictSet d p.1 p.2) []

/-- The keys of a dict, in iteration order. -/
def dkeys (d : PyDict) : List String := d.map Prod.fst

/-- Python `s.startswith(p)`: the first `len(p)` characters of `s` are
exactly `p`. -/
def pyStartswith (s p : String) : Bool :=
  decide (s.data.take p.data.length = p.data)

/-- Python slicing `s[n:]`: drop the first `n` characters. -/
def pyDrop (s : String) (n : Nat) : String := ⟨s.data.drop n⟩

/-- The devices `app.py` can select (`torch.device(...)` handles). -/
inductive Device where
  | mps
  | cuda
  | cpu
deriving Repr, DecidableEq

/-- Lines 80–85 of `app.py`: pick `mps` if available, else `cuda` if
available, else `cpu`.  Availability of the two accelerators is the
input. -/
def select_device (mpsAvailable cudaAvailable : Bool) : Device :=
  if mpsAvailable then Device.mps
  else if cudaAvailable then Device.cuda
  else Device.cpu

/-- The tokenizer as the loader observes it: only its vocabulary size is
read during loading. -/
structure Tokenizer where
  vocab_size : Nat
deriving Repr

/-- The model configuration assembled on lines 108–116 and passed to
`RecipeTransformer`.  Fields hold the Python values read from the
checkpoint (or the defaults), verbatim. -/
structure ModelConfig where
  vocab_size : PyVal
  d_model : PyVal
  n_heads : PyVal
  n_layers : PyVal
  d_ff : PyVal
  dropout : PyVal
deriving Repr

/-- Lines 108–116 of `app.py`: read `vocab_size` from the checkpoint top
level (default: the tokenizer's vocabulary size), `d_model` (default 256),
then `config = checkpoint.get('config', {})` and from it `n_heads`
(default 8), `n_layers` (default 4), `d_ff` (default 1024), `dropout`
(default 0.1).  If the `config` entry exists but is not a dict, the
attribute lookup `.get` raises (modelled as an error, caught by the
loader's `except`). -/
def resolve_model_config (checkpoint : PyDict) (tokenizer_vocab_size : Nat) :
    Except String ModelConfig :=
  let vocab_size := (dget checkpoint "vocab_size").getD (PyVal.nat tokenizer_vocab_size)
  let d_model := (dget checkpoint "d_model").getD (PyVal.nat 256)
  match (dget checkpoint "config").getD (PyVal.dict []) with
  | PyVal.dict config =>
    Except.ok
      { vocab_size := vocab_size
        d_model := d_model
        n_heads := (dget config "n_heads").getD (PyVal.nat 8)
        n_layers := (dget config "n_layers").getD (PyVal.nat 4)
        d_ff := (dget config "d_ff").getD (PyVal.nat 1024)
        dropout := (dget config "dropout").getD (PyVal.rat (1 / 10)) }
  | _ => Except.error "AttributeError: object has no attribute get"

/-- Line 129 of `app.py`: `state_dict = checkpoint.get('model_state_dict',
checkpoint)`, and the subsequent use of `state_dict` as a dict.  `some sd`
when the chosen value is a dict; `none` when a non-dict
`model_state_dict` entry makes the later dict operations raise. -/
def extracted_state_dict (checkpoint : PyDict) : Option PyDict :=
  match (dget checkpoint "model_state_dict").getD (PyVal.dict checkpoint) with
  | PyVal.dict sd => some sd
  | _ => none

/-- Lines 132–133 of `app.py`: inspect `list(state_dict.keys())[0]`
(an `IndexError` on an empty dict, modelled as an error caught by the
loader's `except`); if it starts with `'module.'`, rebuild the dict as
`{k[7:]: v for k, v in state_dict.items()}`. -/
def strip_wrapper_keys (sd : PyDict) : Except String PyDict :=
  match sd with
  | [] => Except.error "IndexError: list index out of range"
  | (k, _) :: _ =>
    if pyStartswith k "module." then
      Except.ok (dictOfPairs (sd.map (fun p => (pyDrop p.1 7, p.2))))
    else
      Except.ok sd

/-- Lines 129–133 of `app.py` combined: extract the parameter mapping and
normalize distributed-wrapper key prefixes. -/
def resolve_state_dict (checkpoint : PyDict) : Except String PyDict :=
  match extracted_state_dict checkpoint with
  | some sd => strip_wrapper_keys sd
  | none => Except.error "AttributeError: object has no attribute keys"

/-- The model object as the loader produces it: its configuration and the
state dict it was loaded with.  (The network internals are external to the
repository.) -/
structure Model where
  config : ModelConfig
  state : PyDict
deriving Repr

/-- The environment of `load_model_and_tokenizer`: device availability,
filesystem existence of the two fixed artifact paths, and the outcomes of
the calls into external libraries (`RecipeTokenizer.load`, `torch.load`,
the `RecipeTransformer` constructor, `model.load_state_dict`).  Each
external call either succeeds with a value or raises. -/
structure LoadEnv where
  mpsAvailable : Bool
  cudaAvailable : Bool
  tokenizer_path_exists : Bool
  model_path_exists : Bool
  tokenizer_load : Except String Tokenizer
  checkpoint_load : Except String PyDict
  transformer_init : ModelConfig → Except String Unit
  load_state_dict_ok : ModelConfig → PyDict → Bool

/-- The body of the `try` block of `load_model_and_tokenizer`
(lines 78–139 of `app.py`), with exceptions as `Except.error` and the two
early `return None, None, None` statements (missing artifact paths) as
`Except.ok none`.  The step order follows the source: device, tokenizer
path check, tokenizer load, model path check, checkpoint load, config
resolution, model construction, state-dict extraction and prefix
normalization, `load_state_dict`. -/
def loadBody (env : LoadEnv) : Except String (Option (Model × Tokenizer × Device)) :=
  let device := select_device env.mpsAvailable env.cudaAvailable
  if env.tokenizer_path_exists = false then Except.ok none
  else match env.tokenizer_load with
  | Except.error e => Except.error e
  | Except.ok tokenizer =>
    if env.model_path_exists = false then Except.ok none
    else match env.checkpoint_load with
    | Except.error e => Except.error e
    | Except.ok checkpoint =>
      match resolve_model_config checkpoint tokenizer.vocab_size with
      | Except.error e => Except.error e
      | Except.ok config =>
        match env.transformer_init config with
        | Except.error e => Except.error e
        | Except.ok _ =>
          match resolve_state_dict checkpoint with
          | Except.error e => Except.error e
          | Except.ok sd =>
            if env.load_state_dict_ok config sd then
              Except.ok (some ({ config := config, state := sd }, tokenizer, device))
            else
              Except.error "load_state_dict: parameter mismatch"

/-- Lines 77–143 of `app.py`: the whole loader.  A successful body yields
the populated triple; an early return or a caught exception (the
`except Exception` on line 141) yields `(None, None, None)`. -/
def load_model_and_tokenizer (env : LoadEnv) :
    Option Model × Option Tokenizer × Option Device :=
  match loadBody env with
  | Except.ok (some (m, t, d)) => (some m, some t, some d)
  | Except.ok none => (none, none, none)
  | Except.error _ => (none, none, none)

/-! ## String primitives for the UI paths -/

/-- Python's `\s` on ASCII text, as used by `str.strip()` and the
post-processing regex: space, tab, newline, carriage return, vertical tab,
form feed. -/
def isPyWhitespace (c : Char) : Bool :=
  c = ' ' || c = '\t' || c = '\n' || c = '\x0d' || c = '\x0b' || c = '\x0c'

/-- Python `str.strip()` on a character list: drop whitespace from both
ends. -/
def pyStripL (l : List Char) : List Char :=
  (l.dropWhile isPyWhitespace).rdropWhile isPyWhitespace

/-- Python `str.strip()`. -/
def pyStrip (s : String) : String := ⟨pyStripL s.data⟩

/-- Python `s.split(',')` on a character list: cut at every comma,
keeping empty pieces; the result always has one more element than the
string has commas. -/
def pySplitCommaL : List Char → List String
  | [] => [""]
  | c :: rest =>
    if c = ',' then "" :: pySplitCommaL rest
    else match pySplitCommaL rest with
      | [] => [String.mk [c]]
      | piece :: pieces => String.mk (c :: piece.data) :: pieces

/-- Python `s.split(',')`. -/
def pySplitComma (s : String) : List String := pySplitCommaL s.data

/-- Line 160 of `app.py`: `[i.strip() for i in ingredients_input.split(',')]`. -/
def ingredients_list (ingredients_input : String) : List String :=
  (pySplitComma ingredients_input).map pyStrip

/-- Python `str.capitalize()` on ASCII text: uppercase the first
character, lowercase all the others. -/
def pyCapitalize (l : List Char) : List Char :=
  match l with
  | [] => []
  | c :: rest => c.toUpper :: rest.map Char.toLower

/-- A sentence-terminal mark for the post-processing regex class `[.!?]`. -/
def isTermChar (c : Char) : Bool := c = '.' || c = '!' || c = '?'

/-- An ASCII lowercase letter, the regex class `[a-z]`. -/
def isLowerAZ (c : Char) : Bool := 'a' ≤ c && c ≤ 'z'

/-- Line 192 of `app.py`:
`re.sub(r'([.!?])\s*([a-z])', lambda p: p.group(1) + " " + p.group(2).upper(), text)`,
as a left-to-right, non-overlapping scan in one structural pass.  The
state `none` is the ordinary scan; `some ws` means a terminal mark has
just been emitted and `ws` (reversed) is the whitespace read since it: if
a lowercase letter follows, the match succeeds and the whitespace is
replaced by the single space of the replacement template; otherwise the
attempt fails, the scanned whitespace is emitted unchanged, and scanning
resumes at the offending character (whitespace itself can never begin a
match, so skipping the rescan of `ws` is behavior-preserving; a fresh
terminal mark restarts an attempt, matching `re.sub` resuming at the
position after a failed one). -/
def subGo : Option (List Char) → List Char → List Char
  | none, [] => []
  | some ws, [] => ws.reverse
  | none, c :: rest =>
    if isTermChar c then c :: subGo (some []) rest
    else c :: subGo none rest
  | some ws, x :: rest =>
    if isPyWhitespace x then subGo (some (x :: ws)) rest
    else if isLowerAZ x then ' ' :: x.toUpper :: subGo none rest
    else ws.reverse ++
      (if isTermChar x then x :: subGo (some []) rest
       else x :: subGo none rest)

/-- The `re.sub` of line 192 on a character list. -/
def subSentenceL (l : List Char) : List Char := subGo none l

/-- Lines 191–192 of `app.py`: the display post-processing.
`recipe_text.capitalize()` followed by the sentence-boundary
re-capitalization `re.sub`. -/
def clean (text : String) : String := ⟨subSentenceL (pyCapitalize text.data)⟩

/-! ## The generate-button handler -/

/-- A call from the button handler into the core pipeline (lines 158–192
of `app.py`), with the arguments that are fixed in the source recorded. -/
inductive CoreCall where
  | formatInput
  | encode : Nat → CoreCall
  | generate : Nat → Rat → Nat → CoreCall
  | decode
  | postprocess
deriving Repr, DecidableEq

/-- What the handler reports to the user. -/
inductive HandlerOutcome where
  | noTrigger
  | warnEmptyInput
  | errorModelNotLoaded
  | ranGeneration
deriving Repr, DecidableEq

/-- Lines 149–153 of `app.py`: the branch structure of the handler.
`if generate_btn: if not ingredients_input: warning; elif model is None:
error; else: generation`.  (`not s` on a Python string is true exactly on
the empty string.) -/
def handle_generate (generate_btn : Bool) (ingredients_input : String)
    (model : Option Model) : HandlerOutcome :=
  if generate_btn = false then HandlerOutcome.noTrigger
  else if ingredients_input = "" then HandlerOutcome.warnEmptyInput
  else match model with
    | none => HandlerOutcome.errorModelNotLoaded
    | some _ => HandlerOutcome.ranGeneration

/-- Lines 149–192 of `app.py`: the sequence of core invocations the
handler performs, with their fixed arguments.  Only the generation branch
invokes anything; it formats the prompt, encodes it with
`max_length=200`, generates with `max_length=300, temperature=0.8,
top_k=50`, decodes, and post-processes. -/
def core_calls (generate_btn : Bool) (ingredients_input : String)
    (model : Option Model) : List CoreCall :=
  if generate_btn = false then []
  else if ingredients_input = "" then []
  else match model with
    | none => []
    | some _ =>
      [CoreCall.formatInput, CoreCall.encode 200,
       CoreCall.generate 300 (4 / 5 : Rat) 50, CoreCall.decode,
       CoreCall.postprocess]

/-! ## The generation loop

`RecipeTransformer.generate` lives in `model_utils.py`, which is not part
of this repository's sources; only its call site (line 178 of `app.py`)
is.  The loop below is therefore modelled from the specification. -/

/-- Modelled from the spec: `RecipeTransformer.generate` is not in the
repository sources.  One sampling oracle step: given the current token
sequence, the composite of the forward pass, temperature scaling, top-k
restriction and sampling yields the next token.  Spec §4.5: "maintain a
growing token sequence seeded with `input_ids`"; each step appends one
sampled token. -/
def genStep (sample : List Nat → Nat) (seq : List Nat) : List Nat :=
  seq ++ [sample seq]

/-- Modelled from the spec (§4.5): the generation loop with `fuel`
remaining steps.  Each iteration samples one token and appends it; the
loop stops early when the sampled token is the designated end-of-sequence
token, and otherwise when `fuel` runs out. -/
def generateAux (sample : List Nat → Nat) (eos : Nat) :
    Nat → List Nat → List Nat
  | 0, seq => seq
  | fuel + 1, seq =>
    let t := sample seq
    if t = eos then seq ++ [t]
    else generateAux sample eos fuel (seq ++ [t])

/-- Modelled from the spec (§4.5): `generate(model, tokenizer, input_ids,
max_length, temperature, top_k)`.  The model, tokenizer, temperature and
top_k are abstracted into the sampling oracle `sample`; `eos` is the
designated end-of-sequence token; the loop appends at most `max_length`
tokens beyond `input_ids`, stopping early on `eos`. -/
def generate (sample : List Nat → Nat) (eos : Nat) (input_ids : List Nat)
    (max_length : Nat) : List Nat :=
  generateAux sample eos max_length input_ids

/-! ## Helper lemmas -/

lemma pySplitCommaL_ne_nil (l : List Char) : pySplitCommaL l ≠ [] := by
  cases l with
  | nil => simp [pySplitCommaL]
  | cons c rest =>
    simp only [pySplitCommaL]
    split
    · simp
    · split <;> simp

lemma pySplitCommaL_length (l : List Char) :
    (pySplitCommaL l).length = l.count ',' + 1 := by
  induction l with
  | nil => simp [pySplitCommaL]
  | cons c rest ih =>
    by_cases hc : c = ','
    · subst hc
      simp [pySplitCommaL, ih, List.count_cons]
    · simp only [pySplitCommaL, if_neg hc]
      cases h : pySplitCommaL rest with
      | nil => exact absurd h (pySplitCommaL_ne_nil rest)
      | cons piece pieces =>
        rw [h] at ih
        simp only [List.length_cons] at ih ⊢
        rw [List.count_cons]
        simp only [beq_iff_eq, hc, if_false]
        omega

lemma pyStripL_idempotent (l : List Char) : pyStripL (pyStripL l) = pyStripL l := by
  unfold pyStripL
  set a := l.dropWhile isPyWhitespace with ha
  set b := a.rdropWhile isPyWhitespace with hb
  have hfront : b.dropWhile isPyWhitespace = b := by
    rw [List.dropWhile_eq_self_iff]
    intro hl
    have hpre : b <+: a := List.rdropWhile_prefix isPyWhitespace a
    have hla : 0 < a.length := lt_of_lt_of_le hl hpre.length_le
    have hget : b.get ⟨0, hl⟩ = a.get ⟨0, hla⟩ := by
      simpa using hpre.getElem (n := 0) hl
    rw [hget]
    have hnil : a.dropWhile isPyWhitespace = a := by
      rw [ha, List.dropWhile_idempotent]
    have := List.dropWhile_get_zero_not isPyWhitespace l (by rw [← ha] at *; omega)
    simpa [← ha, hnil] using this
  rw [hfront, hb, List.rdropWhile_idempotent]

lemma pyStrip_idempotent (s : String) : pyStrip (pyStrip s) = pyStrip s := by
  unfold pyStrip
  exact congrArg String.mk (pyStripL_idempotent s.data)

lemma generateAux_length_le (sample : List Nat → Nat) (eos : Nat) :
    ∀ (fuel : Nat) (seq : List Nat),
      (generateAux sample eos fuel seq).length ≤ seq.length + fuel := by
  intro fuel
  induction fuel with
  | zero => intro seq; simp [generateAux]
  | succ n ih =>
    intro seq
    simp only [generateAux]
    split
    · simp
    · have := ih (seq ++ [sample seq])
      simp at this ⊢
      omega

lemma generateAux_length_ge (sample : List Nat → Nat) (eos : Nat) :
    ∀ (fuel : Nat) (seq : List Nat),
      seq.length ≤ (generateAux sample eos fuel seq).length := by
  intro fuel
  induction fuel with
  | zero => intro seq; simp [generateAux]
  | succ n ih =>
    intro seq
    simp only [generateAux]
    split
    · simp
    · have := ih (seq ++ [sample seq])
      simp at this
      omega

lemma generateAux_stop (sample : List Nat → Nat) (eos : Nat) :
    ∀ (fuel : Nat) (seq : List Nat),
      (generateAux sample eos fuel seq).length = seq.length + fuel ∨
      (generateAux sample eos fuel seq).getLast? = some eos := by
  intro fuel
  induction fuel with
  | zero => intro seq; left; simp [generateAux]
  | succ n ih =>
    intro seq
    simp only [generateAux]
    split
    · right
      rename_i ht
      rw [List.getLast?_append_cons]
      simp [ht]
    · rcases ih (seq ++ [sample seq]) with h | h
      · left
        rw [h]
        simp
        omega
      · right
        exact h

lemma dictSet_append (d : PyDict) (k : String) (v : PyVal) (h : k ∉ dkeys d) :
    dictSet d k v = d ++ [(k, v)] := by
  induction d with
  | nil => simp [dictSet]
  | cons p rest ih =>
    obtain ⟨k', v'⟩ := p
    simp only [dkeys, List.map_cons, List.mem_cons, not_or] at h
    simp only [dictSet]
    rw [if_neg (Ne.symm h.1)]
    rw [ih (by simpa [dkeys] using h.2)]
    simp

lemma dictOfPairs_go (ps : PyDict) :
    ∀ acc : PyDict, (dkeys acc ++ dkeys ps).Nodup →
      ps.foldl (fun d p => dictSet d p.1 p.2) acc = acc ++ ps := by
  induction ps with
  | nil => intro acc _; simp
  | cons p rest ih =>
    intro acc h
    obtain ⟨k, v⟩ := p
    simp only [dkeys, List.map_cons] at h
    have hk : k ∉ dkeys acc := by
      intro hmem
      exact (List.nodup_append.mp h).2.2 hmem (List.mem_cons_self k _)
    simp only [List.foldl_cons]
    rw [dictSet_append acc k v hk]
    rw [ih (acc ++ [(k, v)]) (by simpa [dkeys, List.append_assoc] using h)]
    simp

lemma dictOfPairs_eq_self (ps : PyDict) (h : (dkeys ps).Nodup) :
    dictOfPairs ps = ps := by
  have := dictOfPairs_go ps [] (by simpa [dkeys] using h)
  simpa [dictOfPairs] using this

lemma dkeys_map_strip (sd : PyDict) :
    dkeys (sd.map fun p => (pyDrop p.1 7, p.2)) =
      (dkeys sd).map (fun s => pyDrop s 7) := by
  simp [dkeys, List.map_map, Function.comp]

lemma pyStartswith_module_drop_inj (a b : String)
    (ha : pyStartswith a "module." = true) (hb : pyStartswith b "module." = true)
    (h : pyDrop a 7 = pyDrop b 7) : a = b := by
  have hlen : "module.".data.length = 7 := rfl
  have ha' : a.data.take 7 = "module.".data := by
    have := of_decide_eq_true ha
    rwa [hlen] at this
  have hb' : b.data.take 7 = "module.".data := by
    have := of_decide_eq_true hb
    rwa [hlen] at this
  have hdrop : a.data.drop 7 = b.data.drop 7 := by
    have : (pyDrop a 7).data = (pyDrop b 7).data := congrArg String.data h
    simpa [pyDrop] using this
  have hdata : a.data = b.data := by
    have h1 := List.take_append_drop 7 a.data
    have h2 := List.take_append_drop 7 b.data
    rw [← h1, ← h2, ha', hb', hdrop]
  cases a; cases b
  exact congrArg String.mk hdata

lemma pyDrop_module_not_prefixed (k : String)
    (h1 : pyStartswith k "module." = true)
    (h2 : pyStartswith k "module.module." = false) :
    pyStartswith (pyDrop k 7) "module." = false := by
  cases hc : pyStartswith (pyDrop k 7) "module." with
  | false => rfl
  | true =>
    exfalso
    have hk7 : k.data.take 7 = "module.".data := by
      have := of_decide_eq_true h1
      rwa [show "module.".data.length = 7 from rfl] at this
    have hd7 : (k.data.drop 7).take 7 = "module.".data := by
      have := of_decide_eq_true hc
      simpa [pyDrop, show "module.".data.length = 7 from rfl] using this
    have h14 : k.data.take 14 = "module.module.".data := by
      have : k.data.take (7 + 7) = k.data.take 7 ++ (k.data.drop 7).take 7 :=
        List.take_add k.data 7 7
      rw [hk7, hd7] at this
      exact this
    have : pyStartswith k "module.module." = true := by
      unfold pyStartswith
      rw [show "module.module.".data.length = 14 from rfl]
      exact decide_eq_true h14
    rw [h2] at this
    cases this

lemma isLowerAZ_not_ws (d : Char) (h : isLowerAZ d = true) :
    isPyWhitespace d = false := by
  by_cases h1 : d = ' '
  · subst h1; exact absurd h (by decide)
  by_cases h2 : d = '\t'
  · subst h2; exact absurd h (by decide)
  by_cases h3 : d = '\n'
  · subst h3; exact absurd h (by decide)
  by_cases h4 : d = '\x0d'
  · subst h4; exact absurd h (by decide)
  by_cases h5 : d = '\x0b'
  · subst h5; exact absurd h (by decide)
  by_cases h6 : d = '\x0c'
  · subst h6; exact absurd h (by decide)
  simp [isPyWhitespace, h1, h2, h3, h4, h5, h6]

lemma subGo_none_no_term (l : List Char) (h : ∀ c ∈ l, isTermChar c = false) :
    subGo none l = l := by
  induction l with
  | nil => rfl
  | cons c rest ih =>
    have hc := h c (List.mem_cons_self c rest)
    simp only [subGo, hc]
    simp only [Bool.false_eq_true, if_false]
    rw [ih (fun x hx => h x (List.mem_cons_of_mem c hx))]

lemma subGo_none_head (c : Char) (l : List Char) :
    ∃ tl, subGo none (c :: l) = c :: tl := by
  cases hc : isTermChar c with
  | true => exact ⟨subGo (some []) l, by simp [subGo, hc]⟩
  | false => exact ⟨subGo none l, by simp [subGo, hc]⟩

lemma subGo_some_match (ws : List Char) (d : Char) (w l2 : List Char)
    (hw : ∀ x ∈ w, isPyWhitespace x = true) (hd : isLowerAZ d = true) :
    subGo (some ws) (w ++ d :: l2) = ' ' :: d.toUpper :: subGo none l2 := by
  induction w generalizing ws with
  | nil =>
    simp only [List.nil_append, subGo, isLowerAZ_not_ws d hd, hd]
    simp
  | cons x w' ih =>
    have hx := hw x (List.mem_cons_self x w')
    simp only [List.cons_append, subGo, hx, if_true]
    exact ih (x :: ws) (fun y hy => hw y (List.mem_cons_of_mem x hy))

lemma loadBody_ok_some_inv (env : LoadEnv) (m : Model) (t : Tokenizer)
    (d : Device) (h : loadBody env = Except.ok (some (m, t, d))) :
    env.tokenizer_path_exists = true ∧ env.model_path_exists = true ∧
    env.tokenizer_load = Except.ok t ∧
    ∃ cp, env.checkpoint_load = Except.ok cp ∧
      resolve_model_config cp t.vocab_size = Except.ok m.config ∧
      resolve_state_dict cp = Except.ok m.state ∧
      env.load_state_dict_ok m.config m.state = true ∧
      d = select_device env.mpsAvailable env.cudaAvailable := by
  unfold loadBody at h
  cases hte : env.tokenizer_path_exists with
  | false => rw [hte] at h; simp at h
  | true =>
  rw [hte] at h
  simp only [Bool.true_eq_false, if_false] at h
  cases htl : env.tokenizer_load with
  | error e => rw [htl] at h; simp at h
  | ok tok =>
  rw [htl] at h
  simp only [] at h
  cases hme : env.model_path_exists with
  | false => rw [hme] at h; simp at h
  | true =>
  rw [hme] at h
  simp only [Bool.true_eq_false, if_false] at h
  cases hcl : env.checkpoint_load with
  | error e => rw [hcl] at h; simp at h
  | ok cp =>
  rw [hcl] at h
  simp only [] at h
  cases hrc : resolve_model_config cp tok.vocab_size with
  | error e => rw [hrc] at h; simp at h
  | ok cfg =>
  rw [hrc] at h
  simp only [] at h
  cases hti : env.transformer_init cfg with
  | error e => rw [hti] at h; simp at h
  | ok u =>
  rw [hti] at h
  simp only [] at h
  cases hrs : resolve_state_dict cp with
  | error e => rw [hrs] at h; simp at h
  | ok sd =>
  rw [hrs] at h
  simp only [] at h
  cases hlo : env.load_state_dict_ok cfg sd with
  | false => rw [hlo] at h; simp at h
  | true =>
  rw [hlo] at h
  simp only [if_true] at h
  simp only [Except.ok.injEq, Option.some.injEq, Prod.mk.injEq] at h
  obtain ⟨h1, h2, h3⟩ := h
  subst h1
  subst h2
  subst h3
  exact ⟨rfl, rfl, rfl, cp, rfl, hrc, hrs, hlo, rfl⟩

/-! ## Claim theorems -/

/-- C9: `select_device` always returns a device and follows the fixed
priority order mps > cuda > cpu; it has no failure mode (it is a total
function into `Device`, and cpu is the terminal fallback). -/
theorem select_device_priority :
    ∀ m c : Bool,
      (m = true → select_device m c = Device.mps) ∧
      (m = false → c = true → select_device m c = Device.cuda) ∧
      (m = false → c = false → select_device m c = Device.cpu) := by
  decide

/-- Witness for C9: with neither accelerator available, the cpu fallback
is selected. -/
theorem select_device_priority_witness :
    select_device false false = Device.cpu :=
  (select_device_priority false false).2.2 rfl rfl

/-- C8: on the generate trigger the empty-input check runs before any
core invocation: empty input yields the user-visible warning and an empty
list of core calls, whatever the loaded resources are; non-empty input
with absent resources yields the load-failure message and still no core
call. -/
theorem handler_checks_empty_input_first :
    ∀ (btn : Bool) (inp : String) (m : Option Model),
      (btn = true → inp = "" →
        handle_generate btn inp m = HandlerOutcome.warnEmptyInput ∧
        core_calls btn inp m = []) ∧
      (btn = true → inp ≠ "" → m = none →
        handle_generate btn inp m = HandlerOutcome.errorModelNotLoaded ∧
        core_calls btn inp m = []) := by
  intro btn inp m
  constructor
  · intro hb hi
    subst hb; subst hi
    simp [handle_generate, core_calls]
  · intro hb hi hm
    subst hb; subst hm
    simp [handle_generate, core_calls, hi]

/-- Witness for C8: triggered with empty input and absent resources, the
handler warns and performs no core call. -/
theorem handler_checks_empty_input_first_witness :
    handle_generate true "" none = HandlerOutcome.warnEmptyInput ∧
    core_calls true "" none = [] :=
  (handler_checks_empty_input_first true "" none).1 rfl rfl

/-- C10: every user-triggered generation uses the fixed parameters of the
source: encoding uses `max_length=200`, generation uses `max_length=300`,
`temperature=0.8`, `top_k=50`, for every combination of trigger, input
string and loaded model — no input influences them. -/
theorem generation_params_fixed :
    ∀ (btn : Bool) (inp : String) (m : Option Model),
      (∀ (mL : Nat) (temp : Rat) (k : Nat),
        CoreCall.generate mL temp k ∈ core_calls btn inp m →
        mL = 300 ∧ temp = (4 / 5 : Rat) ∧ k = 50) ∧
      (∀ mL : Nat, CoreCall.encode mL ∈ core_calls btn inp m → mL = 200) ∧
      (btn = true → inp ≠ "" → ∀ mo : Model, m = some mo →
        core_calls btn inp m =
          [CoreCall.formatInput, CoreCall.encode 200,
           CoreCall.generate 300 (4 / 5 : Rat) 50, CoreCall.decode,
           CoreCall.postprocess]) := by
  intro btn inp m
  refine ⟨?_, ?_, ?_⟩
  · intro mL temp k hmem
    unfold core_calls at hmem
    split at hmem
    · simp at hmem
    · split at hmem
      · simp at hmem
      · match m, hmem with
        | none, hmem => simp at hmem
        | some mo, hmem =>
          simp at hmem
          exact hmem
  · intro mL hmem
    unfold core_calls at hmem
    split at hmem
    · simp at hmem
    · split at hmem
      · simp at hmem
      · match m, hmem with
        | none, hmem => simp at hmem
        | some mo, hmem =>
          simp at hmem
          exact hmem
  · intro hb hi mo hm
    subst hb; subst hm
    simp [core_calls, hi]

/-- Witness for C10: a concrete triggered run with non-empty input and a
loaded model performs exactly the five fixed-parameter core calls. -/
theorem generation_params_fixed_witness :
    core_calls true "x"
        (some ⟨⟨PyVal.nat 1, PyVal.nat 1, PyVal.nat 1, PyVal.nat 1,
          PyVal.nat 1, PyVal.nat 1⟩, []⟩) =
      [CoreCall.formatInput, CoreCall.encode 200,
       CoreCall.generate 300 (4 / 5 : Rat) 50, CoreCall.decode,
       CoreCall.postprocess] :=
  (generation_params_fixed true "x" _).2.2 rfl (by decide) _ rfl

/-- C6: the parsed ingredient list is the comma-split of the raw input
with each element whitespace-stripped: the given example parses with its
trailing empty element preserved, the number of elements is always the
number of commas plus one (so empty elements are never filtered), and
every element is strip-normalized. -/
theorem ingredients_list_spec :
    (ingredients_list "chicken breast, broccoli, " =
      ["chicken breast", "broccoli", ""]) ∧
    (∀ s : String, (ingredients_list s).length = s.data.count ',' + 1) ∧
    (∀ s : String, ∀ x ∈ ingredients_list s, pyStrip x = x) := by
  refine ⟨by decide, ?_, ?_⟩
  · intro s
    unfold ingredients_list pySplitComma
    rw [List.length_map]
    exact pySplitCommaL_length s.data
  · intro s x hx
    unfold ingredients_list at hx
    rcases List.mem_map.mp hx with ⟨y, _, rfl⟩
    exact pyStrip_idempotent y

/-- Witness for C6: the example input parses to the example output, whose
elements are all strip-normalized. -/
theorem ingredients_list_spec_witness :
    ingredients_list "chicken breast, broccoli, " =
      ["chicken breast", "broccoli", ""] ∧
    pyStrip "chicken breast" = "chicken breast" :=
  ⟨ingredients_list_spec.1,
   ingredients_list_spec.2.2 "chicken breast, broccoli, " "chicken breast"
     (by rw [ingredients_list_spec.1]; simp)⟩

/-- C7: the generation procedure (modelled from spec §4.5, as
`RecipeTransformer.generate` is outside the repository sources) is a
finite iteration: for `max_length ≥ 1` it appends at least one and at
most `max_length` tokens beyond the input, and it stops either by
reaching the bound or because the last appended token is the designated
end-of-sequence token. -/
theorem generate_terminates_bounded :
    ∀ (sample : List Nat → Nat) (eos : Nat) (input_ids : List Nat)
      (max_length : Nat), 1 ≤ max_length →
      input_ids.length + 1 ≤ (generate sample eos input_ids max_length).length ∧
      (generate sample eos input_ids max_length).length ≤
        input_ids.length + max_length ∧
      ((generate sample eos input_ids max_length).length =
          input_ids.length + max_length ∨
        (generate sample eos input_ids max_length).getLast? = some eos) := by
  intro sample eos input_ids max_length hmax
  refine ⟨?_, generateAux_length_le sample eos max_length input_ids,
    generateAux_stop sample eos max_length input_ids⟩
  unfold generate
  match max_length, hmax with
  | n + 1, _ =>
    simp only [generateAux]
    split
    · simp
    · have := generateAux_length_ge sample eos n (input_ids ++ [sample input_ids])
      simp at this
      omega

/-- Witness for C7: a concrete generation run (constant non-eos sampler,
budget 3) appends between 1 and 3 tokens. -/
theorem generate_terminates_bounded_witness :
    2 ≤ (generate (fun _ => 0) 1 [5] 3).length ∧
    (generate (fun _ => 0) 1 [5] 3).length ≤ 4 ∧
    ((generate (fun _ => 0) 1 [5] 3).length = 4 ∨
      (generate (fun _ => 0) 1 [5] 3).getLast? = some 1) := by
  have h := generate_terminates_bounded (fun _ => 0) 1 [5] 3 (by decide)
  simpa using h

/-- C1 counterexample: a non-empty parameter mapping whose only key
starts with `'module.'` — namely the doubled `"module.module.weight"` —
resolves to a mapping that still contains a key with the `'module.'`
prefix, refuting the claim that the resolved set contains no such key. -/
theorem strip_wrapper_keys_nested_wrapper_cex :
    (∀ key ∈ dkeys [("module.module.weight", PyVal.tensor 0)],
      pyStartswith key "module." = true) ∧
    resolve_state_dict
        [("model_state_dict",
          PyVal.dict [("module.module.weight", PyVal.tensor 0)])] =
      Except.ok [("module.weight", PyVal.tensor 0)] ∧
    ("module.weight" ∈ dkeys [("module.weight", PyVal.tensor 0)] ∧
      pyStartswith "module.weight" "module." = true) := by
  refine ⟨?_, rfl, by simp [dkeys], rfl⟩
  intro key hk
  simp [dkeys] at hk
  subst hk
  rfl

/-- C1 (amended): stripping is applied exactly when the first key of the
extracted mapping starts with `'module.'`, and then removes the first 7
characters of every key; for a mapping with distinct keys that all start
with `'module.'` the result keeps exactly the same number of keys, each
the original minus its first 7 characters, and — provided no original key
starts with the doubled prefix `'module.module.'` — the result contains
no key with the `'module.'` prefix; when the first key does not start
with the prefix every key is left unchanged. -/
theorem strip_wrapper_keys_spec :
    ∀ (k : String) (v : PyVal) (rest : PyDict),
      (pyStartswith k "module." = true →
        strip_wrapper_keys ((k, v) :: rest) =
          Except.ok (dictOfPairs (((k, v) :: rest).map
            (fun p => (pyDrop p.1 7, p.2))))) ∧
      (pyStartswith k "module." = false →
        strip_wrapper_keys ((k, v) :: rest) = Except.ok ((k, v) :: rest)) ∧
      ((dkeys ((k, v) :: rest)).Nodup →
        (∀ key ∈ dkeys ((k, v) :: rest), pyStartswith key "module." = true) →
        strip_wrapper_keys ((k, v) :: rest) =
          Except.ok (((k, v) :: rest).map (fun p => (pyDrop p.1 7, p.2))) ∧
        (((k, v) :: rest).map (fun p => (pyDrop p.1 7, p.2))).length =
          ((k, v) :: rest).length ∧
        ((∀ key ∈ dkeys ((k, v) :: rest),
            pyStartswith key "module.module." = false) →
          ∀ key ∈ dkeys (((k, v) :: rest).map (fun p => (pyDrop p.1 7, p.2))),
            pyStartswith key "module." = false)) := by
  intro k v rest
  refine ⟨?_, ?_, ?_⟩
  · intro h
    simp [strip_wrapper_keys, h]
  · intro h
    simp [strip_wrapper_keys, h]
  · intro hnodup hall
    have hk : pyStartswith k "module." = true := hall k (by simp [dkeys])
    have hmapnodup :
        (dkeys (((k, v) :: rest).map (fun p => (pyDrop p.1 7, p.2)))).Nodup := by
      rw [dkeys_map_strip]
      refine List.Nodup.map_on ?_ hnodup
      intro x hx y hy hxy
      exact pyStartswith_module_drop_inj x y (hall x hx) (hall y hy) hxy
    have heq : dictOfPairs (((k, v) :: rest).map (fun p => (pyDrop p.1 7, p.2)))
        = ((k, v) :: rest).map (fun p => (pyDrop p.1 7, p.2)) :=
      dictOfPairs_eq_self _ hmapnodup
    refine ⟨?_, by simp, ?_⟩
    · rw [show strip_wrapper_keys ((k, v) :: rest) =
          Except.ok (dictOfPairs (((k, v) :: rest).map
            (fun p => (pyDrop p.1 7, p.2)))) by simp [strip_wrapper_keys, hk]]
      rw [heq]
    · intro hnn key hkey
      rw [dkeys_map_strip] at hkey
      rcases List.mem_map.mp hkey with ⟨orig, horig, rfl⟩
      exact pyDrop_module_not_prefixed orig (hall orig horig) (hnn orig horig)

/-- Witness for C1 (amended): a two-key wrapped mapping strips to the
two unwrapped keys, with the count preserved and no `'module.'` key
remaining. -/
theorem strip_wrapper_keys_spec_witness :
    strip_wrapper_keys
        [("module.embed", PyVal.tensor 0), ("module.out", PyVal.tensor 1)] =
      Except.ok [("embed", PyVal.tensor 0), ("out", PyVal.tensor 1)] ∧
    ∀ key ∈ dkeys [("embed", PyVal.tensor 0), ("out", PyVal.tensor 1)],
      pyStartswith key "module." = false := by
  have h := (strip_wrapper_keys_spec "module.embed" (PyVal.tensor 0)
      [("module.out", PyVal.tensor 1)]).2.2 (by decide) (by decide)
  exact ⟨h.1, fun key hk => h.2.2 (by decide) key hk⟩

/-- C2: configuration resolution is total on well-formed checkpoints
(those whose `config` entry, when present, is a sub-mapping, per the
Checkpoint data model) and fills every field: `vocab_size` is the
checkpoint's top-level value verbatim when present and the tokenizer's
vocabulary size otherwise, `d_model` is the top-level value when present
and 256 otherwise, and a checkpoint lacking a `config` sub-mapping
resolves to `n_heads=8`, `n_layers=4`, `d_ff=1024`, `dropout=0.1`. -/
theorem resolve_model_config_spec :
    ∀ (cp : PyDict) (tok : Nat),
      (∀ w, dget cp "config" = some w → ∃ entries, w = PyVal.dict entries) →
      (∃ cfg : ModelConfig,
        resolve_model_config cp tok = Except.ok cfg ∧
        cfg.vocab_size = (dget cp "vocab_size").getD (PyVal.nat tok) ∧
        cfg.d_model = (dget cp "d_model").getD (PyVal.nat 256) ∧
        (∀ w, dget cp "vocab_size" = some w → cfg.vocab_size = w) ∧
        (dget cp "vocab_size" = none → cfg.vocab_size = PyVal.nat tok) ∧
        (∀ w, dget cp "d_model" = some w → cfg.d_model = w) ∧
        (dget cp "d_model" = none → cfg.d_model = PyVal.nat 256)) ∧
      (dget cp "config" = none →
        resolve_model_config cp tok = Except.ok
          ⟨(dget cp "vocab_size").getD (PyVal.nat tok),
           (dget cp "d_model").getD (PyVal.nat 256),
           PyVal.nat 8, PyVal.nat 4, PyVal.nat 1024, PyVal.rat (1 / 10)⟩) := by
  intro cp tok hwf
  have hdict : ∃ es, (dget cp "config").getD (PyVal.dict []) = PyVal.dict es := by
    cases hc : dget cp "config" with
    | none => exact ⟨[], rfl⟩
    | some w =>
      obtain ⟨es, rfl⟩ := hwf w hc
      exact ⟨es, rfl⟩
  obtain ⟨es, hes⟩ := hdict
  constructor
  · refine ⟨⟨(dget cp "vocab_size").getD (PyVal.nat tok),
      (dget cp "d_model").getD (PyVal.nat 256),
      (dget es "n_heads").getD (PyVal.nat 8),
      (dget es "n_layers").getD (PyVal.nat 4),
      (dget es "d_ff").getD (PyVal.nat 1024),
      (dget es "dropout").getD (PyVal.rat (1 / 10))⟩, ?_, rfl, rfl, ?_, ?_, ?_, ?_⟩
    · unfold resolve_model_config
      rw [hes]
    · intro w hw; rw [hw]; rfl
    · intro hw; rw [hw]; rfl
    · intro w hw; rw [hw]; rfl
    · intro hw; rw [hw]; rfl
  · intro hnone
    unfold resolve_model_config
    rw [hnone]
    rfl

/-- Witness for C2: a checkpoint with only a `vocab_size` entry resolves
to that vocabulary size, `d_model=256` and the default
`n_heads/n_layers/d_ff/dropout`, ignoring the tokenizer's size 99. -/
theorem resolve_model_config_spec_witness :
    resolve_model_config [("vocab_size", PyVal.nat 7)] 99 = Except.ok
      ⟨PyVal.nat 7, PyVal.nat 256, PyVal.nat 8, PyVal.nat 4,
       PyVal.nat 1024, PyVal.rat (1 / 10)⟩ := by
  have h := (resolve_model_config_spec [("vocab_size", PyVal.nat 7)] 99
    (by intro w hw; rw [show dget [("vocab_size", PyVal.nat 7)] "config" = none
      from rfl] at hw; cases hw)).2 rfl
  exact h

/-- C3: the loader is all-or-nothing and never raises past its boundary:
for every environment it returns either the fully absent triple or a
fully populated one (the embedding is a total function, so no fault
escapes), and each listed failure — tokenizer artifact missing,
checkpoint artifact missing, a raising tokenizer or checkpoint read, or
a parameter/shape mismatch in `load_state_dict` — forces the all-absent
triple. -/
theorem load_all_or_nothing :
    ∀ env : LoadEnv,
      (load_model_and_tokenizer env = (none, none, none) ∨
        ∃ m t d, load_model_and_tokenizer env = (some m, some t, some d)) ∧
      (env.tokenizer_path_exists = false →
        load_model_and_tokenizer env = (none, none, none)) ∧
      (env.model_path_exists = false →
        load_model_and_tokenizer env = (none, none, none)) ∧
      (∀ e, env.tokenizer_load = Except.error e →
        load_model_and_tokenizer env = (none, none, none)) ∧
      (∀ e, env.checkpoint_load = Except.error e →
        load_model_and_tokenizer env = (none, none, none)) ∧
      ((∀ cfg sd, env.load_state_dict_ok cfg sd = false) →
        load_model_and_tokenizer env = (none, none, none)) := by
  intro env
  rcases hb : loadBody env with e | o
  · have hl : load_model_and_tokenizer env = (none, none, none) := by
      simp [load_model_and_tokenizer, hb]
    exact ⟨Or.inl hl, fun _ => hl, fun _ => hl, fun _ _ => hl, fun _ _ => hl,
      fun _ => hl⟩
  · cases o with
    | none =>
      have hl : load_model_and_tokenizer env = (none, none, none) := by
        simp [load_model_and_tokenizer, hb]
      exact ⟨Or.inl hl, fun _ => hl, fun _ => hl, fun _ _ => hl, fun _ _ => hl,
        fun _ => hl⟩
    | some triple =>
      obtain ⟨m, t, d⟩ := triple
      have hl : load_model_and_tokenizer env = (some m, some t, some d) := by
        simp [load_model_and_tokenizer, hb]
      have hinv := loadBody_ok_some_inv env m t d hb
      obtain ⟨hte, hme, htl, cp, hcl, _, _, hok, _⟩ := hinv
      refine ⟨Or.inr ⟨m, t, d, hl⟩, ?_, ?_, ?_, ?_, ?_⟩
      · intro hfalse; rw [hte] at hfalse; cases hfalse
      · intro hfalse; rw [hme] at hfalse; cases hfalse
      · intro e he; rw [htl] at he; cases he
      · intro e he; rw [hcl] at he; cases he
      · intro hall; rw [hall m.config m.state] at hok; cases hok

/-- Witness for C3: with the tokenizer artifact path absent, the loader
returns the all-absent triple. -/
theorem load_all_or_nothing_witness :
    load_model_and_tokenizer
        ⟨false, false, false, true, Except.ok ⟨10⟩, Except.ok [],
          fun _ => Except.ok (), fun _ _ => true⟩ = (none, none, none) :=
  (load_all_or_nothing _).2.1 rfl

/-- C5: a checkpoint whose extracted parameter mapping is empty cannot
produce a loaded triple: the `IndexError` from reading the first key is
caught at the loader boundary (the `except` branch reports it via
`st.error`) and the loader returns the all-absent triple — the process
does not crash, since the embedding's loader is a total function. -/
theorem load_empty_state_dict_reported :
    ∀ (env : LoadEnv) (cp : PyDict),
      env.checkpoint_load = Except.ok cp →
      extracted_state_dict cp = some [] →
      load_model_and_tokenizer env = (none, none, none) := by
  intro env cp hcp hemp
  rcases hb : loadBody env with e | o
  · simp [load_model_and_tokenizer, hb]
  · cases o with
    | none => simp [load_model_and_tokenizer, hb]
    | some triple =>
      exfalso
      obtain ⟨m, t, d⟩ := triple
      obtain ⟨_, _, _, cp', hcp', _, hrs, _, _⟩ :=
        loadBody_ok_some_inv env m t d hb
      rw [hcp] at hcp'
      obtain rfl : cp = cp' := by
        injection hcp'
      rw [show resolve_state_dict cp = Except.error
          "IndexError: list index out of range" by
        unfold resolve_state_dict
        rw [hemp]
        rfl] at hrs
      cases hrs

/-- Witness for C5: a concrete environment whose checkpoint's
`model_state_dict` is the empty mapping loads to the all-absent
triple. -/
theorem load_empty_state_dict_reported_witness :
    load_model_and_tokenizer
        ⟨false, false, true, true, Except.ok ⟨10⟩,
          Except.ok [("model_state_dict", PyVal.dict [])],
          fun _ => Except.ok (), fun _ _ => true⟩ = (none, none, none) :=
  load_empty_state_dict_reported _ [("model_state_dict", PyVal.dict [])] rfl rfl

/-- C4 counterexample: `clean` does not leave all characters after the
first unchanged — Python's `str.capitalize()` lowercases them.  On
`"hB"` (which contains no sentence-terminal mark, so the regex changes
nothing) the code produces `"Hb"`, not the `"HB"` the claim implies. -/
theorem clean_capitalize_cex : clean "hB" = "Hb" ∧ "Hb" ≠ "HB" :=
  ⟨rfl, by decide⟩

/-- C4 (amended): `clean` first applies Python `capitalize` — uppercasing
the first character and lowercasing every later one — and then, for every
occurrence of a sentence-terminal mark followed by optional whitespace
and a lowercase letter, replaces the whitespace by a single space and
uppercases the letter.  Proved: the example from the spec; the first
character of the output is always the uppercased first character of the
input; the regex pass leaves any text without terminal marks unchanged;
and the per-occurrence replacement behavior. -/
theorem clean_spec :
    (clean "hello world. this is nutrigen." =
      "Hello world. This is nutrigen.") ∧
    (∀ s : String, (clean s).data.head? = s.data.head?.map Char.toUpper) ∧
    (∀ l : List Char, (∀ c ∈ l, isTermChar c = false) → subSentenceL l = l) ∧
    (∀ (c d : Char) (w l2 : List Char), isTermChar c = true →
      (∀ x ∈ w, isPyWhitespace x = true) → isLowerAZ d = true →
      subSentenceL (c :: (w ++ d :: l2)) =
        c :: ' ' :: Char.toUpper d :: subSentenceL l2) := by
  refine ⟨by decide, ?_, ?_, ?_⟩
  · intro s
    show (subGo none (pyCapitalize s.data)).head? = s.data.head?.map Char.toUpper
    cases hs : s.data with
    | nil => rfl
    | cons c rest =>
      obtain ⟨tl, htl⟩ := subGo_none_head c.toUpper (rest.map Char.toLower)
      show (subGo none (c.toUpper :: rest.map Char.toLower)).head? =
        (some c).map Char.toUpper
      rw [htl]
      rfl
  · exact fun l h => subGo_none_no_term l h
  · intro c d w l2 hc hw hd
    show subGo none (c :: (w ++ d :: l2)) = _
    simp only [subGo, hc, if_true]
    exact congrArg (c :: ·) (subGo_some_match [] d w l2 hw hd)

/-- Witness for C4 (amended): the replacement and no-mark clauses at
concrete inputs: `". a"` becomes `". A"` and `"x"` is unchanged by the
regex pass. -/
theorem clean_spec_witness :
    subSentenceL ['.', ' ', 'a'] = ['.', ' ', 'A'] ∧
    subSentenceL ['x'] = ['x'] := by
  constructor
  · exact clean_spec.2.2.2 '.' 'a' [' '] [] (by decide) (by decide) (by decide)
  · exact clean_spec.2.2.1 ['x'] (by decide)

end NutriGen
